import Mathlib

/-!
Shallow embedding of `src/GAGHL_AVR_I2C/GAGHL_AVR_I2C.c`, a master-mode
AVR TWI (I2C) driver.

The driver talks to the TWI peripheral through four registers (TWCR,
TWDR, TWSR, TWBR).  We embed it at the level of bus operations: each
primitive (`i2c_start`, `i2c_stop`, `i2c_write`, `i2c_read_ack`,
`i2c_read_no_ack`) appends an event to a trace and, where the hardware
answers, consumes the answer from an oracle `Env` (the TWSR status byte
observed after the k-th `i2c_write`, and the TWDR data byte observed
after the k-th read).  Composed transactions are translated statement by
statement from the C source.

C-level integer conventions used throughout: on AVR, `int` is 16 bits
wide and `unsigned long` is 32 bits wide; `uint8_t` function parameters
reduce their argument mod 256, which we make explicit with `% 256`.
-/

namespace I2C

/-- Bus-level events emitted by the primitives, in program order:
start condition, stop condition, transmission of a (uint8_t) byte,
receive with acknowledgment, receive without acknowledgment. -/
inductive Ev where
  | start : Ev
  | stop : Ev
  | write : Nat → Ev
  | readAck : Ev
  | readNoAck : Ev
deriving DecidableEq, Repr

/-- Hardware oracle: `status k` is the TWSR byte observed after the k-th
call to `i2c_write` (counting from 0), and `recv k` is the TWDR byte
observed after the k-th read (either variant).  Every possible hardware
response is some `Env`. -/
structure Env where
  status : Nat → Nat
  recv : Nat → Nat

/-- Machine state threaded through the driver: `wk` counts the
`i2c_write` calls performed so far, `rk` the reads performed so far,
and `trace` records the bus events in order. -/
structure St where
  wk : Nat
  rk : Nat
  trace : List Ev
deriving DecidableEq, Repr

/-- Fresh machine state: no operation performed yet. -/
def St0 : St := ⟨0, 0, []⟩

/-- C `i2c_start`: writes TWCR to assert the start condition and
busy-waits for TWINT.  At the bus level it emits a start event;
the busy-wait is modelled separately by `i2c_start_regs`. -/
def i2c_start (s : St) : St :=
  ⟨s.wk, s.rk, s.trace ++ [Ev.start]⟩

/-- C `i2c_stop`: a single TWCR write asserting the stop condition,
with no busy-wait.  At the bus level it emits a stop event. -/
def i2c_stop (s : St) : St :=
  ⟨s.wk, s.rk, s.trace ++ [Ev.stop]⟩

/-- C `i2c_write(uint8_t Data)`: loads TWDR with `Data` (mod 256, the
uint8_t parameter), triggers the transfer, waits, then compares
`TWSR & 0xF8` with the four accepted status codes; returns 1 on a match
and 0 otherwise.  The observed TWSR byte is `env.status s.wk`. -/
def i2c_write (env : Env) (Data : Nat) (s : St) : Nat × St :=
  let s' : St := ⟨s.wk + 1, s.rk, s.trace ++ [Ev.write (Data % 256)]⟩
  let status := env.status s.wk &&& 0xF8
  ((if status ≠ 0x18 ∧ status ≠ 0x28 ∧ status ≠ 0x40 ∧ status ≠ 0x50 then 0 else 1),
   s')

/-- C `i2c_read_ack`: triggers a receive with TWEA set, waits, and
returns the received TWDR byte, `env.recv s.rk` (an 8-bit register,
hence mod 256). -/
def i2c_read_ack (env : Env) (s : St) : Nat × St :=
  (env.recv s.rk % 256, ⟨s.wk, s.rk + 1, s.trace ++ [Ev.readAck]⟩)

/-- C `i2c_read_no_ack`: triggers a receive with TWEA clear, waits,
and returns the received TWDR byte. -/
def i2c_read_no_ack (env : Env) (s : St) : Nat × St :=
  (env.recv s.rk % 256, ⟨s.wk, s.rk + 1, s.trace ++ [Ev.readNoAck]⟩)

/-- C `i2c_writeByte(uint8_t Slave_Address, uint8_t Data)`:
start, write `Slave_Address << 1` (both `i2c_write` results are
discarded, as in the source), write `Data`, stop. -/
def i2c_writeByte (env : Env) (Slave_Address Data : Nat) (s : St) : St :=
  let s := i2c_start s
  let ws := i2c_write env ((Slave_Address % 256) <<< 1) s
  let ws2 := i2c_write env Data ws.2
  i2c_stop ws2.2

/-- C `i2c_readByte(uint8_t Slave_Address)`: start, write
`(Slave_Address << 1) | 1`, read one byte without acknowledgment,
stop, return the byte.  The address-phase result is discarded. -/
def i2c_readByte (env : Env) (Slave_Address : Nat) (s : St) : Nat × St :=
  let s := i2c_start s
  let ws := i2c_write env (((Slave_Address % 256) <<< 1) ||| 1) s
  let rs := i2c_read_no_ack env ws.2
  let s2 := i2c_stop rs.2
  (rs.1, s2)

/-- C `while(*str != '\0') { if (!i2c_write(*str)) return 0; str++; }`
followed by `i2c_stop(); return 1;`.  The string is modelled as the
list of its bytes before the terminator.  On a failed write the C
function returns 0 immediately, without a stop; when the loop runs off
the end of the string it stops and returns 1. -/
def pagewriteLoop (env : Env) : List Nat → St → Nat × St
  | [], s => (1, i2c_stop s)
  | c :: cs, s =>
    let ws := i2c_write env c s
    if ws.1 = 0 then (0, ws.2) else pagewriteLoop env cs ws.2

/-- C `i2c_pagewrite(uint8_t Slave_Address, char* str)`: start, write
`Slave_Address << 1` (result discarded), then the data loop
`pagewriteLoop`. -/
def i2c_pagewrite (env : Env) (Slave_Address : Nat) (str : List Nat) (s : St) : Nat × St :=
  let s := i2c_start s
  let ws := i2c_write env ((Slave_Address % 256) <<< 1) s
  pagewriteLoop env str ws.2

/-- C `for(uint8_t i = 0; i < length; i++) { if(i == length - 1)
buffer[i] = i2c_read_no_ack(); else buffer[i] = i2c_read_ack(); }`.
The loop is driven by the list of index values the C loop visits
(`List.range length`), storing each received byte at index `i`. -/
def pagereadLoop (env : Env) (length : Nat) : List Nat → List Nat → St → List Nat × St
  | [], buffer, s => (buffer, s)
  | i :: is, buffer, s =>
    if i = length - 1 then
      let rs := i2c_read_no_ack env s
      pagereadLoop env length is (buffer.set i rs.1) rs.2
    else
      let rs := i2c_read_ack env s
      pagereadLoop env length is (buffer.set i rs.1) rs.2

/-- C `i2c_pageread(uint8_t Slave_Address, char* buffer, uint8_t length)`:
start, write `(Slave_Address << 1) | 1` (result discarded), run the read
loop over indices `0 .. length-1`, then `if(length > 0)
buffer[length-1] = '\0';`, then stop.  The caller's buffer is modelled
as a list; only the cells the C code assigns are changed. -/
def i2c_pageread (env : Env) (Slave_Address : Nat) (buffer : List Nat) (length : Nat) (s : St) : List Nat × St :=
  let s := i2c_start s
  let ws := i2c_write env (((Slave_Address % 256) <<< 1) ||| 1) s
  let bs := pagereadLoop env length (List.range length) buffer ws.2
  let buf := if length > 0 then bs.1.set (length - 1) 0 else bs.1
  (buf, i2c_stop bs.2)

/-- The C compile-time clock constant: `#define F_CPU 8000000UL`. -/
def F_CPU : Nat := 8000000

/-- C `i2c_init(uint16_t freq)`, the value stored into TWBR by
`TWBR = ((F_CPU / (freq * 1000)) - 16) / 2;`.  On AVR, `int` and
`unsigned int` are 16 bits, so `freq * 1000` (uint16_t times int) is
computed modulo 2^16; `F_CPU` is `unsigned long` (32 bits), so the
division, the subtraction of 16 (wrapping) and the division by 2 are
computed modulo 2^32; storing into the 8-bit TWBR truncates mod 256.
The clock constant is passed as the configuration input `fcpu`. -/
def i2c_init_TWBR (fcpu freq : Nat) : Nat :=
  let x := ((freq % 65536) * 1000) % 65536
  ((((fcpu % 4294967296) / x) + (4294967296 - 16)) % 4294967296 / 2) % 256

/-- The divisor formula as the spec states it (exact integer
arithmetic, no fixed-width truncation), for comparison with
`i2c_init_TWBR`: `(coreClockHz / (busFrequencyKHz * 1000) - 16) / 2`. -/
def divisor_spec (coreClockHz busFrequencyKHz : Nat) : Nat :=
  (coreClockHz / (busFrequencyKHz * 1000) - 16) / 2

/-! Register-level view of the five primitives, used to compare their
polling behaviour.  Bit positions are the AVR TWCR bit numbers from
`avr/io.h`: TWINT = 7, TWEA = 6, TWSTA = 5, TWSTO = 4, TWEN = 2. -/

/-- TWCR interrupt-flag bit position. -/
def TWINT : Nat := 7
/-- TWCR acknowledge-enable bit position. -/
def TWEA : Nat := 6
/-- TWCR start-condition bit position. -/
def TWSTA : Nat := 5
/-- TWCR stop-condition bit position. -/
def TWSTO : Nat := 4
/-- TWCR peripheral-enable bit position. -/
def TWEN : Nat := 2

/-- One register access performed by a primitive: a TWCR control write,
a TWDR data write, a busy-wait polling loop on the TWINT flag
(`while (!(TWCR & (1 << TWINT)));`), a TWSR status read, or a TWDR
data read. -/
inductive RegAction where
  | writeTWCR : Nat → RegAction
  | writeTWDR : Nat → RegAction
  | pollTWINT : RegAction
  | readTWSR : RegAction
  | readTWDR : RegAction
deriving DecidableEq, Repr

/-- Register accesses of C `i2c_start`, in order. -/
def i2c_start_regs : List RegAction :=
  [RegAction.writeTWCR ((1 <<< TWINT) ||| (1 <<< TWSTA) ||| (1 <<< TWEN)),
   RegAction.pollTWINT]

/-- Register accesses of C `i2c_stop`, in order: a single control
write, no polling. -/
def i2c_stop_regs : List RegAction :=
  [RegAction.writeTWCR ((1 <<< TWINT) ||| (1 <<< TWSTO) ||| (1 <<< TWEN))]

/-- Register accesses of C `i2c_write`, in order. -/
def i2c_write_regs (Data : Nat) : List RegAction :=
  [RegAction.writeTWDR (Data % 256),
   RegAction.writeTWCR ((1 <<< TWINT) ||| (1 <<< TWEN)),
   RegAction.pollTWINT,
   RegAction.readTWSR]

/-- Register accesses of C `i2c_read_ack`, in order. -/
def i2c_read_ack_regs : List RegAction :=
  [RegAction.writeTWCR ((1 <<< TWINT) ||| (1 <<< TWEN) ||| (1 <<< TWEA)),
   RegAction.pollTWINT,
   RegAction.readTWDR]

/-- Register accesses of C `i2c_read_no_ack`, in order. -/
def i2c_read_no_ack_regs : List RegAction :=
  [RegAction.writeTWCR ((1 <<< TWINT) ||| (1 <<< TWEN)),
   RegAction.pollTWINT,
   RegAction.readTWDR]

/-! Concrete hardware oracles used in the counterexample evaluations:
status 0x18 is SLA+W acknowledged, 0x28 is data acknowledged, 0x20 is
SLA+W not acknowledged, 0x30 is data not acknowledged. -/

/-- Oracle for `i2c_pagewrite` where the address byte is acknowledged
(0x18) and the first data byte is not (0x30). -/
def envAddrAckDataNack : Env :=
  ⟨fun k => if k = 0 then 0x18 else 0x30, fun _ => 0⟩

/-- Oracle for `i2c_pagewrite` where the address byte is not
acknowledged (0x20) but every data byte is (0x28). -/
def envAddrNackDataAck : Env :=
  ⟨fun k => if k = 0 then 0x20 else 0x28, fun _ => 0⟩

/-- Oracle for the stop-counting evaluation: address acknowledged,
data not acknowledged. -/
def envStopCount : Env :=
  ⟨fun k => if k = 0 then 0x18 else 0x30, fun _ => 0⟩

/-- Oracle for the page-read witnesses: every write acknowledged, the
k-th received byte is `100 + k` (all nonzero). -/
def envRecv : Env :=
  ⟨fun _ => 0x50, fun k => 100 + k⟩

/-- Read events emitted by the data phase of `i2c_pageread` over its
last `n` loop iterations: acknowledged reads followed by one final
unacknowledged read. -/
def readPattern : Nat → List Ev
  | 0 => []
  | n + 1 => List.replicate n Ev.readAck ++ [Ev.readNoAck]

/-! Theorems.  Unless stated otherwise, operations are run from the
fresh machine state `St0`, so write statuses are consumed from
`env.status 0, 1, ...` and received bytes from `env.recv 0, 1, ...`. -/

/-- Claim C3: `i2c_write` returns 1 exactly when the upper five bits of
the observed status byte (`TWSR & 0xF8`) equal one of 0x18, 0x28, 0x40,
0x50, and returns 0 for every other status. -/
theorem i2c_write_returns_iff_status_accepted (env : Env) (Data : Nat) (s : St) :
    ((i2c_write env Data s).1 = 1 ↔
      (env.status s.wk &&& 0xF8 = 0x18 ∨ env.status s.wk &&& 0xF8 = 0x28 ∨
       env.status s.wk &&& 0xF8 = 0x40 ∨ env.status s.wk &&& 0xF8 = 0x50)) ∧
    ((i2c_write env Data s).1 = 0 ↔
      ¬(env.status s.wk &&& 0xF8 = 0x18 ∨ env.status s.wk &&& 0xF8 = 0x28 ∨
        env.status s.wk &&& 0xF8 = 0x40 ∨ env.status s.wk &&& 0xF8 = 0x50)) := by
  simp only [i2c_write]
  by_cases h18 : env.status s.wk &&& 0xF8 = 0x18 <;>
    by_cases h28 : env.status s.wk &&& 0xF8 = 0x28 <;>
      by_cases h40 : env.status s.wk &&& 0xF8 = 0x40 <;>
        by_cases h50 : env.status s.wk &&& 0xF8 = 0x50 <;>
          simp_all

/-- Claim C7: `i2c_writeByte env a d` from a fresh state emits exactly
start, write of `(a << 1)` (as a uint8_t), write of `d` (as a uint8_t),
stop, in that order; at `(0x10, 0xAA)` the two written bytes are 0x20
and 0xAA; and the whole result is independent of the hardware's
responses, so both `i2c_write` results are discarded. -/
theorem i2c_writeByte_event_sequence (env : Env) (a d : Nat) :
    (i2c_writeByte env a d St0).trace
      = [Ev.start, Ev.write (((a % 256) <<< 1) % 256), Ev.write (d % 256), Ev.stop] ∧
    (i2c_writeByte env 0x10 0xAA St0).trace
      = [Ev.start, Ev.write 0x20, Ev.write 0xAA, Ev.stop] ∧
    ∀ env2 : Env, i2c_writeByte env a d St0 = i2c_writeByte env2 a d St0 := by
  refine ⟨rfl, rfl, fun env2 => rfl⟩

/-- Claim C10: `i2c_pagewrite` on the empty string emits start, the
address byte with write direction, and stop, transmits no data byte,
and returns 1 for every hardware response (in particular whether or not
the address byte was acknowledged). -/
theorem i2c_pagewrite_empty_string (env : Env) (a : Nat) :
    i2c_pagewrite env a [] St0
      = (1, ⟨1, 0, [Ev.start, Ev.write (((a % 256) <<< 1) % 256), Ev.stop]⟩) := rfl

/-- Claim C1, counterexample evaluation: with the address byte
acknowledged and the single data byte 0x41 not acknowledged,
`i2c_pagewrite 0x10 "A"` returns 0 but its trace contains no stop
event, contradicting "still issues a stop condition before returning";
and with the address byte not acknowledged but the data byte
acknowledged it returns 1, contradicting "returns true iff every
transmitted byte, including the address byte, was acknowledged". -/
theorem i2c_pagewrite_claim_fails :
    (i2c_pagewrite envAddrAckDataNack 0x10 [0x41] St0).1 = 0 ∧
    (i2c_pagewrite envAddrAckDataNack 0x10 [0x41] St0).2.trace
      = [Ev.start, Ev.write 0x20, Ev.write 0x41] ∧
    Ev.stop ∉ (i2c_pagewrite envAddrAckDataNack 0x10 [0x41] St0).2.trace ∧
    (i2c_pagewrite envAddrNackDataAck 0x10 [0x41] St0).1 = 1 := by
  decide

/-- Claim C2, counterexample evaluation: on the early-failure path of
`i2c_pagewrite` (address acknowledged, data byte not acknowledged) the
trace contains one start event and no stop event, so the bus is left
started but not stopped.  The other composed operations do balance
every start with exactly one stop: `i2c_writeByte`, `i2c_readByte` and
`i2c_pageread` (shown here on the length-zero read; the nonzero-length
read trace is settled with the page-read theorems below). -/
theorem i2c_pagewrite_start_without_stop :
    ((i2c_pagewrite envStopCount 0x10 [0x41] St0).2.trace.count Ev.start = 1 ∧
     (i2c_pagewrite envStopCount 0x10 [0x41] St0).2.trace.count Ev.stop = 0) ∧
    (∀ (env : Env) (a d : Nat),
      (i2c_writeByte env a d St0).trace.count Ev.start = 1 ∧
      (i2c_writeByte env a d St0).trace.count Ev.stop = 1) ∧
    (∀ (env : Env) (a : Nat),
      (i2c_readByte env a St0).2.trace.count Ev.start = 1 ∧
      (i2c_readByte env a St0).2.trace.count Ev.stop = 1) ∧
    (∀ (env : Env) (a : Nat) (buffer : List Nat),
      (i2c_pageread env a buffer 0 St0).2.trace.count Ev.start = 1 ∧
      (i2c_pageread env a buffer 0 St0).2.trace.count Ev.stop = 1) := by
  refine ⟨by decide, fun env a d => ⟨rfl, rfl⟩, fun env a => ⟨rfl, rfl⟩,
    fun env a buffer => ⟨rfl, rfl⟩⟩

/-- Claim C4, counterexample evaluation: at the spec's own end-to-end
scenario (core clock 8 MHz, bus frequency 100 kHz, which satisfies
8000000 / 100000 = 80 ≥ 16) the spec formula gives divisor 32, but the
code stores 108 into TWBR, because `freq * 1000` is computed in 16-bit
unsigned arithmetic on AVR and 100 * 1000 wraps to 34464. -/
theorem i2c_init_divisor_overflow :
    divisor_spec F_CPU 100 = 32 ∧
    i2c_init_TWBR F_CPU 100 = 108 ∧
    i2c_init_TWBR F_CPU 100 ≠ divisor_spec F_CPU 100 ∧
    F_CPU / (100 * 1000) ≥ 16 := by
  decide

/-- Claim C8: `i2c_stop` performs exactly one register access, a single
TWCR control write, and never polls the TWINT ready flag, so it returns
for every hardware state; each of `i2c_start`, `i2c_write`,
`i2c_read_ack` and `i2c_read_no_ack` does poll the TWINT flag. -/
theorem i2c_stop_single_write_no_poll :
    i2c_stop_regs
      = [RegAction.writeTWCR ((1 <<< TWINT) ||| (1 <<< TWSTO) ||| (1 <<< TWEN))] ∧
    RegAction.pollTWINT ∉ i2c_stop_regs ∧
    RegAction.pollTWINT ∈ i2c_start_regs ∧
    (∀ Data : Nat, RegAction.pollTWINT ∈ i2c_write_regs Data) ∧
    RegAction.pollTWINT ∈ i2c_read_ack_regs ∧
    RegAction.pollTWINT ∈ i2c_read_no_ack_regs := by
  refine ⟨rfl, by decide, by decide, fun Data => ?_, by decide, by decide⟩
  simp [i2c_write_regs]

/-! Unfolding lemmas for the `i2c_pageread` loop. -/

/-- One loop iteration at the final index `length - 1`: an
unacknowledged read stored at that index. -/
lemma pagereadLoop_cons_last (env : Env) (length i : Nat) (is : List Nat)
    (buffer : List Nat) (s : St) (hi : i = length - 1) :
    pagereadLoop env length (i :: is) buffer s
      = pagereadLoop env length is (buffer.set i (env.recv s.rk % 256))
          ⟨s.wk, s.rk + 1, s.trace ++ [Ev.readNoAck]⟩ := by
  simp [pagereadLoop, hi, i2c_read_no_ack]

/-- One loop iteration at a non-final index: an acknowledged read
stored at that index. -/
lemma pagereadLoop_cons_mid (env : Env) (length i : Nat) (is : List Nat)
    (buffer : List Nat) (s : St) (hi : i ≠ length - 1) :
    pagereadLoop env length (i :: is) buffer s
      = pagereadLoop env length is (buffer.set i (env.recv s.rk % 256))
          ⟨s.wk, s.rk + 1, s.trace ++ [Ev.readAck]⟩ := by
  simp [pagereadLoop, hi, i2c_read_ack]

/-- The loop never changes the length of the caller's buffer. -/
lemma pagereadLoop_length (env : Env) (length : Nat) :
    ∀ (is : List Nat) (buffer : List Nat) (s : St),
      (pagereadLoop env length is buffer s).1.length = buffer.length := by
  intro is
  induction is with
  | nil => intro buffer s; rfl
  | cons i is ih =>
    intro buffer s
    by_cases hi : i = length - 1
    · rw [pagereadLoop_cons_last env length i is buffer s hi, ih, List.length_set]
    · rw [pagereadLoop_cons_mid env length i is buffer s hi, ih, List.length_set]

/-- State after running the loop over the index range
`i, i+1, ..., length-1`: the read counter advances by `n = length - i`
and the trace gains `n - 1` acknowledged reads followed by one final
unacknowledged read. -/
lemma pagereadLoop_snd (env : Env) (length : Nat) :
    ∀ (n i : Nat) (buffer : List Nat) (s : St), i + n = length →
      (pagereadLoop env length (List.range' i n) buffer s).2
        = ⟨s.wk, s.rk + n, s.trace ++ readPattern n⟩ := by
  intro n
  induction n with
  | zero =>
    intro i buffer s h
    cases s
    simp [pagereadLoop, readPattern, List.range']
  | succ m ih =>
    intro i buffer s h
    rw [show List.range' i (m + 1) = i :: List.range' (i + 1) m from rfl]
    match m, ih with
    | 0, _ =>
      rw [pagereadLoop_cons_last env length i _ buffer s (by omega)]
      simp [pagereadLoop, readPattern, List.range']
    | m' + 1, ih =>
      rw [pagereadLoop_cons_mid env length i _ buffer s (by omega),
        ih (i + 1) _ _ (by omega)]
      simp [readPattern, List.replicate_succ]
      omega

/-- Cell `j` of the buffer after running the loop over the index range
`i, ..., length-1`: inside the written window it holds the byte received
at that position, outside it the original cell. -/
lemma pagereadLoop_getElem (env : Env) (length : Nat) :
    ∀ (n i : Nat) (buffer : List Nat) (s : St) (j : Nat),
      (pagereadLoop env length (List.range' i n) buffer s).1[j]?
        = if i ≤ j ∧ j < i + n ∧ j < buffer.length
          then some (env.recv (s.rk + (j - i)) % 256)
          else buffer[j]? := by
  intro n
  induction n with
  | zero =>
    intro i buffer s j
    rw [show List.range' i 0 = [] from rfl]
    rw [show pagereadLoop env length [] buffer s = (buffer, s) from rfl]
    rw [if_neg (by omega)]
  | succ m ih =>
    intro i buffer s j
    rw [show List.range' i (m + 1) = i :: List.range' (i + 1) m from rfl]
    have key : ∀ tr : List Ev,
        (pagereadLoop env length (List.range' (i + 1) m)
          (buffer.set i (env.recv s.rk % 256)) ⟨s.wk, s.rk + 1, tr⟩).1[j]?
          = if i ≤ j ∧ j < i + (m + 1) ∧ j < buffer.length
            then some (env.recv (s.rk + (j - i)) % 256)
            else buffer[j]? := by
      intro tr
      rw [ih, List.length_set]
      by_cases hj : j = i
      · subst hj
        by_cases hl : j < buffer.length
        · rw [if_neg (by omega), if_pos ⟨Nat.le_refl j, by omega, hl⟩,
            List.getElem?_set_eq_of_lt _ hl]
          simp
        · rw [if_neg (by omega), if_neg (by omega),
            List.getElem?_eq_none (by rw [List.length_set]; omega),
            List.getElem?_eq_none (by omega)]
      · rw [List.getElem?_set_ne (fun hij => hj hij.symm)]
        split_ifs with hc1 hc2 hc2
        · rw [show s.rk + 1 + (j - (i + 1)) = s.rk + (j - i) from by omega]
        · omega
        · omega
        · rfl
    by_cases hi : i = length - 1
    · rw [pagereadLoop_cons_last env length i _ buffer s hi]
      exact key _
    · rw [pagereadLoop_cons_mid env length i _ buffer s hi]
      exact key _

/-- Closed form of `i2c_pageread` for a nonzero length `m + 1` from the
fresh state: the final state and the final content of every buffer
cell. -/
lemma i2c_pageread_spec (env : Env) (a : Nat) (buffer : List Nat) (m : Nat)
    (h3 : m + 1 ≤ buffer.length) :
    ((i2c_pageread env a buffer (m + 1) St0).2
      = ⟨1, m + 1, [Ev.start, Ev.write ((((a % 256) <<< 1) ||| 1) % 256)]
          ++ readPattern (m + 1) ++ [Ev.stop]⟩) ∧
    ((i2c_pageread env a buffer (m + 1) St0).1.length = buffer.length) ∧
    (∀ j : Nat, (i2c_pageread env a buffer (m + 1) St0).1[j]?
      = if j = m then some 0
        else if j < m then some (env.recv j % 256)
        else buffer[j]?) := by
  have hb : i2c_pageread env a buffer (m + 1) St0
      = ((pagereadLoop env (m + 1) (List.range (m + 1)) buffer
            ⟨1, 0, [Ev.start, Ev.write ((((a % 256) <<< 1) ||| 1) % 256)]⟩).1.set m 0,
         i2c_stop (pagereadLoop env (m + 1) (List.range (m + 1)) buffer
            ⟨1, 0, [Ev.start, Ev.write ((((a % 256) <<< 1) ||| 1) % 256)]⟩).2) := by
    simp only [i2c_pageread, i2c_start, i2c_write]
    rw [if_pos (Nat.succ_pos m)]
    rfl
  refine ⟨?_, ?_, ?_⟩
  · rw [hb, List.range_eq_range',
      pagereadLoop_snd env (m + 1) (m + 1) 0 buffer _ (Nat.zero_add _)]
    simp [i2c_stop]
  · rw [hb]
    simp only [List.length_set]
    rw [pagereadLoop_length]
  · intro j
    rw [hb, List.range_eq_range']
    by_cases hj : j = m
    · subst hj
      rw [if_pos rfl]
      have hlen : j < (pagereadLoop env (j + 1) (List.range' 0 (j + 1)) buffer
          ⟨1, 0, [Ev.start, Ev.write ((((a % 256) <<< 1) ||| 1) % 256)]⟩).1.length := by
        rw [pagereadLoop_length]
        omega
      rw [List.getElem?_set_eq_of_lt _ hlen]
    · rw [if_neg hj, List.getElem?_set_ne (fun h => hj h.symm),
        pagereadLoop_getElem env (m + 1) (m + 1) 0 buffer _ j]
      by_cases hjm : j < m
      · rw [if_pos ⟨Nat.zero_le j, by omega, by omega⟩, if_pos hjm]
        simp
      · rw [if_neg (by omega), if_neg hjm]

/-- Claim C5: for length `N ≥ 1`, `i2c_pageread` touches exactly the
first `N` cells of the caller's buffer (the buffer keeps its length and
every cell at position `≥ N` is unchanged, while every cell at position
`< N` is written), and its data phase performs `N - 1` acknowledged
reads at positions `0 .. N-2` followed by one unacknowledged read at
position `N - 1`, as the emitted trace shows. -/
theorem i2c_pageread_produces_n_bytes (env : Env) (a : Nat) (buffer : List Nat)
    (length : Nat) (h1 : 1 ≤ length) (h2 : length ≤ 255) (h3 : length ≤ buffer.length) :
    ((i2c_pageread env a buffer length St0).1.length = buffer.length) ∧
    (∀ j, length ≤ j →
      (i2c_pageread env a buffer length St0).1[j]? = buffer[j]?) ∧
    ((i2c_pageread env a buffer length St0).2.trace
      = [Ev.start, Ev.write ((((a % 256) <<< 1) ||| 1) % 256)]
        ++ List.replicate (length - 1) Ev.readAck ++ [Ev.readNoAck, Ev.stop]) ∧
    (∀ j, j < length →
      (i2c_pageread env a buffer length St0).1[j]?
        = some (if j = length - 1 then 0 else env.recv j % 256)) := by
  obtain ⟨m, rfl⟩ : ∃ m, length = m + 1 := ⟨length - 1, by omega⟩
  obtain ⟨hsnd, hlen, hget⟩ := i2c_pageread_spec env a buffer m h3
  refine ⟨hlen, ?_, ?_, ?_⟩
  · intro j hj
    rw [hget j, if_neg (by omega), if_neg (by omega)]
  · rw [hsnd]
    simp [readPattern]
  · intro j hj
    rw [hget j]
    by_cases hm : j = m
    · rw [if_pos hm, if_pos (by omega)]
    · rw [if_neg hm, if_pos (by omega), if_neg (by omega)]

/-- Witness for `i2c_pageread_produces_n_bytes` at a concrete input:
address 0x10, buffer of four cells, length 3. -/
theorem i2c_pageread_produces_n_bytes_witness :
    (1 ≤ 3 ∧ 3 ≤ 255 ∧ 3 ≤ ([9, 9, 9, 9] : List Nat).length) ∧
    (((i2c_pageread envRecv 0x10 [9, 9, 9, 9] 3 St0).1.length
        = ([9, 9, 9, 9] : List Nat).length) ∧
     (∀ j, 3 ≤ j →
       (i2c_pageread envRecv 0x10 [9, 9, 9, 9] 3 St0).1[j]?
         = ([9, 9, 9, 9] : List Nat)[j]?) ∧
     ((i2c_pageread envRecv 0x10 [9, 9, 9, 9] 3 St0).2.trace
       = [Ev.start, Ev.write ((((0x10 % 256) <<< 1) ||| 1) % 256)]
         ++ List.replicate (3 - 1) Ev.readAck ++ [Ev.readNoAck, Ev.stop]) ∧
     (∀ j, j < 3 →
       (i2c_pageread envRecv 0x10 [9, 9, 9, 9] 3 St0).1[j]?
         = some (if j = 3 - 1 then 0 else envRecv.recv j % 256))) :=
  ⟨⟨by decide, by decide, by decide⟩,
   i2c_pageread_produces_n_bytes envRecv 0x10 [9, 9, 9, 9] 3
     (by decide) (by decide) (by decide)⟩

/-- Claim C6: `i2c_pageread` with length 0 emits exactly start, the
address byte with read direction, and stop; it performs no read and
returns the caller's buffer unchanged. -/
theorem i2c_pageread_length_zero (env : Env) (a : Nat) (buffer : List Nat) :
    i2c_pageread env a buffer 0 St0
      = (buffer,
         ⟨1, 0, [Ev.start, Ev.write ((((a % 256) <<< 1) ||| 1) % 256), Ev.stop]⟩) := rfl

/-- Claim C9: for every hardware response and every length `N ≥ 1`,
after `i2c_pageread` the buffer cell at position `N - 1` holds 0: the
final unacknowledged data byte is never delivered to the caller. -/
theorem i2c_pageread_last_cell_zero (env : Env) (a : Nat) (buffer : List Nat)
    (length : Nat) (h1 : 1 ≤ length) (h2 : length ≤ 255) (h3 : length ≤ buffer.length) :
    (i2c_pageread env a buffer length St0).1[length - 1]? = some 0 := by
  obtain ⟨m, rfl⟩ : ∃ m, length = m + 1 := ⟨length - 1, by omega⟩
  obtain ⟨-, -, hget⟩ := i2c_pageread_spec env a buffer m h3
  rw [show m + 1 - 1 = m from rfl, hget m, if_pos rfl]

/-- Witness for `i2c_pageread_last_cell_zero` at a concrete input:
the oracle delivers the nonzero byte 101 for the final read, yet the
last cell is 0. -/
theorem i2c_pageread_last_cell_zero_witness :
    (1 ≤ 2 ∧ 2 ≤ 255 ∧ 2 ≤ ([7, 7] : List Nat).length) ∧
    (i2c_pageread envRecv 5 [7, 7] 2 St0).1[2 - 1]? = some 0 :=
  ⟨⟨by decide, by decide, by decide⟩,
   i2c_pageread_last_cell_zero envRecv 5 [7, 7] 2 (by decide) (by decide) (by decide)⟩

end I2C
